import Mathlib

/-!
Shallow embedding of reriiasu/todo-manage.

The repository contains two variants of the same daily lifecycle job:
* the legacy JavaScript handler `src/todo-manage/app.js` with the two passes
  `expiredTodo` and `deleteTodo`, each submitting its own writes, and
* the current TypeScript handler `src/app.ts` (bundled by webpack into `dist/`,
  which `template.yaml` deploys) that builds one merged transaction via
  `createTransactItems` / `createExpiredTransactItems` /
  `createDeleteTransactItems` and submits it once.

Timestamps (`targetAt`, `createdAt`, `updatedAt`) are ISO date strings in the
source and are always consumed through `new Date(s)` followed by millisecond
arithmetic; they are modelled as the corresponding millisecond integers.
`setDate(getDate() - n)` in the UTC Lambda environment moves the instant by
exactly `n * 86400000` ms, which is how the day thresholds are embedded.
Each run is modelled with a single invocation timestamp `now`; the handful of
`new Date()` calls inside one run are identified with it.  `uuidv4()` is
modelled as an oracle `fresh : Nat → String` indexed by the number of
successor records generated so far in the run.
-/

/-- A JavaScript runtime value.  The `complete` flag of a sub-item is checked
at runtime with strict equality `content.complete === false`, so it is
modelled as a dynamic JS value rather than a Lean `Bool`. -/
inductive JSVal where
  | undef
  | null
  | bool (b : Bool)
  | num (n : Int)
  | str (s : String)
deriving DecidableEq

/-- One sub-item of a comment block: `{complete, content}` (type `Content` in
`src/app.ts`). -/
structure Content where
  complete : JSVal
  content : String
deriving DecidableEq

/-- The structured comment block `{commentType, freeComment, contentList}`
(type `Comment` in `src/app.ts`). -/
structure Comment where
  commentType : String
  freeComment : String
  contentList : List Content
deriving DecidableEq

/-- A todo record (type `Todo` in `src/app.ts`).  `status` is `0` (active) or
`1` (delete-flagged / expired); timestamps are milliseconds since the epoch;
`owner` is `none` for the JS value `null`. -/
structure Todo where
  id : String
  status : Nat
  title : String
  comment : Comment
  url : String
  targetAt : Int
  carryOver : Bool
  createdAt : Int
  updatedAt : Int
  updatedUser : String
  owner : Option String
deriving DecidableEq

/-- `flagDeleteDate = 7`: age in days after which an active todo is flagged. -/
def flagDeleteDate : Int := 7

/-- `resetAddDate = 3`: days added when re-scheduling a carried-over todo. -/
def resetAddDate : Int := 3

/-- `dataDeleteDate = 7`: age in days after which a flagged todo is removed. -/
def dataDeleteDate : Int := 7

/-- One calendar day in milliseconds. -/
def dayMs : Int := 86400000

/-- One DynamoDB `TransactWriteItem` (or single write) issued by the program:
a status update (`UpdateExpression "set #status = :delete"` with value `v`),
a `Put` carrying `ConditionExpression attribute_not_exists(#id)` when
`condNotExists` is true, or a `Delete` by key. -/
inductive WriteOp where
  | update (id : String) (newStatus : Nat)
  | put (item : Todo) (condNotExists : Bool)
  | delete (id : String)
deriving DecidableEq

/-- The `carryOverComment` object: `commentType` and `freeComment` are kept,
`contentList` is `updateTodo.comment.contentList.filter((content) =>
content.complete === false)`.  Identical in both implementations. -/
def carryOverComment (todo : Todo) : Comment :=
  { commentType := todo.comment.commentType
    freeComment := todo.comment.freeComment
    contentList := todo.comment.contentList.filter
      (fun content => content.complete == JSVal.bool false) }

/-- `createTransactItemForStatusUpdate` (`src/app.ts`), also the first element
pushed onto `transactItems` in `app.js`: an `Update` setting `#status` to the
literal `1`. -/
def createTransactItemForStatusUpdate (todo : Todo) : WriteOp :=
  WriteOp.update todo.id 1

/-- `createTransactItemForNewDedlineTodo` (`src/app.ts`), identical to the
`Put` pushed in `app.js`: a fresh `id` from the uuid oracle, `status`, `title`,
`url`, `carryOver`, `createdAt`, `updatedUser` copied from the predecessor,
`comment` set to the filtered block, `targetAt` re-scheduled to
`now + resetAddDate` days, `updatedAt` set to the run timestamp, `owner` set
to `null`, and the `attribute_not_exists(#id)` condition attached. -/
def createTransactItemForNewDedlineTodo (now : Int) (freshId : String)
    (todo : Todo) (c : Comment) : WriteOp :=
  WriteOp.put
    { id := freshId
      status := todo.status
      title := todo.title
      comment := c
      url := todo.url
      targetAt := now + resetAddDate * dayMs
      carryOver := todo.carryOver
      createdAt := todo.createdAt
      updatedAt := now
      updatedUser := todo.updatedUser
      owner := none }
    true

/-- The per-record successor generation shared by both implementations: if
`carryOver` is false nothing is produced; otherwise the comment block is
filtered, and when incomplete sub-items remain a single conditional `Put` is
produced. -/
def carryOverPut (now : Int) (freshId : String) (todo : Todo) : Option WriteOp :=
  if todo.carryOver then
    let c := carryOverComment todo
    if c.contentList.length > 0 then
      some (createTransactItemForNewDedlineTodo now freshId todo c)
    else none
  else none

/-- The filter of `createExpiredTransactItems` (`src/app.ts`): keep a todo
when `status` is `0` and NOT `targetAt - deleteLimit > 0`, where `deleteLimit`
is `now` minus `flagDeleteDate` days. -/
def expiredFilter (now : Int) (todo : Todo) : Bool :=
  todo.status == 0 && !decide (todo.targetAt - (now - flagDeleteDate * dayMs) > 0)

/-- The loop of `createExpiredTransactItems` (`src/app.ts`): for each filtered
todo push the status update, then, unless the carry-over generation declines,
push the successor `Put`.  `k` counts the uuids consumed so far. -/
def createExpiredTransactItemsAux (now : Int) (fresh : Nat → String) :
    List Todo → Nat → List WriteOp
  | [], _ => []
  | todo :: rest, k =>
    match carryOverPut now (fresh k) todo with
    | some p =>
        createTransactItemForStatusUpdate todo :: p ::
          createExpiredTransactItemsAux now fresh rest (k + 1)
    | none =>
        createTransactItemForStatusUpdate todo ::
          createExpiredTransactItemsAux now fresh rest k

/-- `createExpiredTransactItems` (`src/app.ts`). -/
def createExpiredTransactItems (now : Int) (fresh : Nat → String)
    (todoItems : List Todo) : List WriteOp :=
  createExpiredTransactItemsAux now fresh (todoItems.filter (expiredFilter now)) 0

/-- The filter of `createDeleteTransactItems` (`src/app.ts`): reject when
`status !== 1` and the id is not among `deleteIds` (the ids being
status-updated this run); then reject when `targetAt - deleteLimit > 0`, where
`deleteLimit` is `now` minus `dataDeleteDate` days.  Note the source tests
`todo.targetAt`, not `todo.updatedAt`. -/
def deleteTransactFilter (now : Int) (deleteIds : List String) (todo : Todo) : Bool :=
  !(!(todo.status == 1) && !(deleteIds.contains todo.id)) &&
    !decide (todo.targetAt - (now - dataDeleteDate * dayMs) > 0)

/-- `createDeleteTransactItems` (`src/app.ts`). -/
def createDeleteTransactItems (now : Int) (todoItems : List Todo)
    (deleteIds : List String) : List WriteOp :=
  (todoItems.filter (deleteTransactFilter now deleteIds)).map
    (fun todo => WriteOp.delete todo.id)

/-- `item.Update?.Key?.id` on a transact item. -/
def opUpdateId : WriteOp → Option String
  | WriteOp.update i _ => some i
  | _ => none

/-- `item.Delete?.Key?.id` on a transact item. -/
def opDeleteId : WriteOp → Option String
  | WriteOp.delete i => some i
  | _ => none

/-- Whether a transact item is a `Put`. -/
def isPutOp : WriteOp → Bool
  | WriteOp.put _ _ => true
  | _ => false

/-- The final merge filter of `createTransactItems` (`src/app.ts`): keep an
item unless it is an `Update` whose key id occurs in `duplicateIds`. -/
def keepInMerge (duplicateIds : List String) : WriteOp → Bool
  | WriteOp.update i _ => !(duplicateIds.contains i)
  | _ => true

/-- `createTransactItems` (`src/app.ts`): build the expiry items, collect the
updated ids, build the delete items, compute the ids shared by updates and
deletes, drop the superseded updates and append the deletes. -/
def createTransactItems (now : Int) (fresh : Nat → String)
    (todoItems : List Todo) : List WriteOp :=
  let epiredTransactItems := createExpiredTransactItems now fresh todoItems
  let updateIds := epiredTransactItems.filterMap opUpdateId
  let deleteTransactItems := createDeleteTransactItems now todoItems updateIds
  let duplicateIds := (deleteTransactItems.filterMap opDeleteId).filter
    (fun i => updateIds.contains i)
  epiredTransactItems.filter (keepInMerge duplicateIds) ++ deleteTransactItems

/-- Whether some record in the store has the given id (`attribute_not_exists`
on the key attribute fails exactly when this is true). -/
def storeHasId (store : List Todo) (i : String) : Bool :=
  store.any (fun t => t.id == i)

/-- Semantics of `UpdateExpression "set #status = :delete"` on one record of
the table: the record with the targeted key gets `status` replaced, nothing
else is touched. -/
def updateStatusTransform (i : String) (v : Nat) (t : Todo) : Todo :=
  if t.id == i then { t with status := v } else t

/-- Effect of one write operation on the table.  `Put` inserts the item;
under the `attribute_not_exists` guard carried by every `Put` this code
produces, the key is absent when the write is applied. -/
def applyOp (store : List Todo) : WriteOp → List Todo
  | WriteOp.update i v => store.map (updateStatusTransform i v)
  | WriteOp.put item _ => store ++ [item]
  | WriteOp.delete i => store.filter (fun t => !(t.id == i))

/-- Precondition of one write operation against the current table: a guarded
`Put` requires its id to be absent; updates and deletes are unconditional. -/
def opPreconditionOk (store : List Todo) : WriteOp → Bool
  | WriteOp.put item cond => !cond || !(storeHasId store item.id)
  | _ => true

/-- Model of `DynamoDB transactWrite` per its contract (spec section 6): the
batch is applied all-or-nothing; if any operation's precondition fails
against the submitted state, none of the operations take effect. -/
def applyBatch (store : List Todo) (batch : List WriteOp) : Option (List Todo) :=
  if batch.all (opPreconditionOk store) then some (batch.foldl applyOp store)
  else none

/-- The table state after submitting a batch: the new state on success, the
old state when the transaction is rejected. -/
def applyBatchOrKeep (store : List Todo) (batch : List WriteOp) : List Todo :=
  match applyBatch store batch with
  | some s => s
  | none => store

/-- Outcome of the table scan in `getTodoItems` (`src/app.ts`): the item
list, a missing `Items` field (`CustomError "noData"`), or a thrown client
e-rror (`CustomError "getError"`). -/
inductive ScanResult where
  | ok (items : List Todo)
  | noData
  | getError

/-- `exports.lambdaHandler` of `src/app.ts`: on a read failure return status
400; build the transact items; when empty return 200 without writing; on a
transport failure or a rejected transaction return 400 leaving the table as
it was; on success return 200 with the new table state. -/
def lambdaHandlerTs (scan : ScanResult) (now : Int) (fresh : Nat → String)
    (transportOk : Bool) (store : List Todo) : Nat × List Todo :=
  match scan with
  | ScanResult.noData => (400, store)
  | ScanResult.getError => (400, store)
  | ScanResult.ok todoItems =>
    let transactItems := createTransactItems now fresh todoItems
    if transactItems.length == 0 then (200, store)
    else if !transportOk then (400, store)
    else
      match applyBatch store transactItems with
      | some store2 => (200, store2)
      | none => (400, store)

/-- The filter inside `expiredTodo` (`app.js`): keep a queried todo when
`new Date(targetAt) - deleteLimit < 0` (strict), `deleteLimit` being `now`
minus `flagDeleteDate` days. -/
def expiredFilterJs (now : Int) (todo : Todo) : Bool :=
  decide (todo.targetAt - (now - flagDeleteDate * dayMs) < 0)

/-- The loop of `expiredTodo` (`app.js`): `transactItems` starts with the
status update, the successor `Put` is appended when carry-over produces one,
and the `transactWrite` call sits inside `if (updateTodo.carryOver)`, so a
todo with `carryOver` false submits no transaction at all. -/
def expiredTodoTransactionsAux (now : Int) (fresh : Nat → String) :
    List Todo → Nat → List (List WriteOp)
  | [], _ => []
  | todo :: rest, k =>
    if todo.carryOver then
      match carryOverPut now (fresh k) todo with
      | some p =>
          [createTransactItemForStatusUpdate todo, p] ::
            expiredTodoTransactionsAux now fresh rest (k + 1)
      | none =>
          [createTransactItemForStatusUpdate todo] ::
            expiredTodoTransactionsAux now fresh rest k
    else
      expiredTodoTransactionsAux now fresh rest k

/-- `expiredTodo` (`app.js`): query the records with `status = 0`, filter by
the expiry limit, and submit one transaction per processed record; the result
is the list of submitted transactions in order. -/
def expiredTodoOps (now : Int) (fresh : Nat → String) (snapshot : List Todo) :
    List (List WriteOp) :=
  expiredTodoTransactionsAux now fresh
    ((snapshot.filter (fun t => t.status == 0)).filter (expiredFilterJs now)) 0

/-- The filter inside `deleteTodo` (`app.js`): keep a queried todo when
`new Date(updatedAt) - deleteLimit < 0` (strict), `deleteLimit` being `now`
minus `dataDeleteDate` days. -/
def deleteTodoFilter (now : Int) (todo : Todo) : Bool :=
  decide (todo.updatedAt - (now - dataDeleteDate * dayMs) < 0)

/-- `deleteTodo` (`app.js`): query the records with `status = 1`, filter by
the update-age limit, and delete each by id. -/
def deleteTodoOps (now : Int) (snapshot : List Todo) : List WriteOp :=
  ((snapshot.filter (fun t => t.status == 1)).filter (deleteTodoFilter now)).map
    (fun t => WriteOp.delete t.id)

/-- Modelled from claim C4's wording: a "kept" update is an update operation
whose target id is not also selected for delete; everything that is not an
update is not a kept update. -/
def keptUpdateFilter (deleteIds : List String) : WriteOp → Bool
  | WriteOp.update i _ => !(deleteIds.contains i)
  | _ => false

/-- Uuid oracle for the scenario-A evaluation. -/
def c1fresh : Nat → String := fun _ => "n1"

/-- Scenario A record: active, due 10 days before the run, not carried over. -/
def c1t : Todo :=
  { id := "a1", status := 0, title := "t1", comment := ⟨"ct", "", []⟩, url := "u1",
    targetAt := -864000000, carryOver := false, createdAt := 0, updatedAt := -864000000,
    updatedUser := "w1", owner := none }

/-- Uuid oracle for the deletion-pass evaluation. -/
def c3fresh : Nat → String := fun _ => "n3"

/-- Flagged record last updated 8 days before the run, due date 1 day ago. -/
def c3a : Todo :=
  { id := "a3", status := 1, title := "t3", comment := ⟨"ct", "", []⟩, url := "u3",
    targetAt := -86400000, carryOver := false, createdAt := 0, updatedAt := -691200000,
    updatedUser := "w3", owner := none }

/-- Flagged record updated at the run instant, due date 8 days ago. -/
def c3b : Todo :=
  { id := "b3", status := 1, title := "t3b", comment := ⟨"ct", "", []⟩, url := "u3",
    targetAt := -691200000, carryOver := false, createdAt := 0, updatedAt := 0,
    updatedUser := "w3", owner := none }

/-- Carried-over record with one incomplete and one complete sub-item. -/
def c2t : Todo :=
  { id := "a2", status := 0, title := "t2",
    comment := ⟨"ct2", "fc2", [⟨JSVal.bool false, "x"⟩, ⟨JSVal.bool true, "y"⟩]⟩,
    url := "u2", targetAt := -864000000, carryOver := true, createdAt := 0,
    updatedAt := -864000000, updatedUser := "w2", owner := none }

/-- The same record with `carryOver` false. -/
def c2tf : Todo := { c2t with carryOver := false }

/-- The successor operation generated for `c2t` at run time 0. -/
def c2p : WriteOp := createTransactItemForNewDedlineTodo 0 "n2" c2t (carryOverComment c2t)

/-- Uuid oracle for the failure-outcome evaluation. -/
def c5fresh : Nat → String := fun _ => "n5"

/-- Active record due 10 days ago, so the run's batch is non-empty. -/
def c5t : Todo :=
  { id := "a5", status := 0, title := "t5", comment := ⟨"ct", "", []⟩, url := "u5",
    targetAt := -864000000, carryOver := false, createdAt := 0, updatedAt := -864000000,
    updatedUser := "w5", owner := none }

/-- Uuid oracle returning the fresh id "n6". -/
def c6fresh : Nat → String := fun _ => "n6"

/-- Expiring carried-over record with one incomplete sub-item. -/
def c6t : Todo :=
  { id := "p6", status := 0, title := "t6", comment := ⟨"ct6", "fc6", [⟨JSVal.bool false, "x"⟩]⟩,
    url := "u6", targetAt := -864000000, carryOver := true, createdAt := 5,
    updatedAt := -864000000, updatedUser := "w6", owner := none }

/-- The successor record generated for `c6t` at run time 0 with fresh id "n6". -/
def c6item : Todo :=
  { id := "n6", status := 0, title := "t6", comment := ⟨"ct6", "fc6", [⟨JSVal.bool false, "x"⟩]⟩,
    url := "u6", targetAt := 259200000, carryOver := true, createdAt := 5,
    updatedAt := 0, updatedUser := "w6", owner := none }

/-- The transaction `expiredTodo` submits for `c6t`. -/
def c6tx : List WriteOp := [WriteOp.update "p6" 1, WriteOp.put c6item true]

/-- The table after `c6tx` is applied to the one-record table `[c6t]`. -/
def c6st : List Todo := [{ c6t with status := 1 }, c6item]

/-- Uuid oracle returning the fresh id "n7". -/
def c7fresh : Nat → String := fun _ => "n7"

/-- Expiring carried-over record with one incomplete sub-item. -/
def c7t : Todo :=
  { id := "p7", status := 0, title := "t7", comment := ⟨"ct7", "fc7", [⟨JSVal.bool false, "x7"⟩]⟩,
    url := "u7", targetAt := -864000000, carryOver := true, createdAt := 7,
    updatedAt := -5, updatedUser := "w7", owner := none }

/-- The successor record generated for `c7t` at run time 0 with fresh id "n7". -/
def c7item : Todo :=
  { id := "n7", status := 0, title := "t7", comment := ⟨"ct7", "fc7", [⟨JSVal.bool false, "x7"⟩]⟩,
    url := "u7", targetAt := 259200000, carryOver := true, createdAt := 7,
    updatedAt := 0, updatedUser := "w7", owner := none }

/-- The transaction `expiredTodo` submits for `c7t`. -/
def c7tx : List WriteOp := [WriteOp.update "p7" 1, WriteOp.put c7item true]

/-- Uuid oracle that returns the already-existing id "p8" (forced collision). -/
def c8fresh : Nat → String := fun _ => "p8"

/-- Expiring carried-over record whose id the uuid oracle will collide with. -/
def c8t : Todo :=
  { id := "p8", status := 0, title := "t8", comment := ⟨"ct8", "fc8", [⟨JSVal.bool false, "x8"⟩]⟩,
    url := "u8", targetAt := -864000000, carryOver := true, createdAt := 8,
    updatedAt := -8, updatedUser := "w8", owner := none }

/-- The successor record generated for `c8t` with the colliding id "p8". -/
def c8item : Todo :=
  { id := "p8", status := 0, title := "t8", comment := ⟨"ct8", "fc8", [⟨JSVal.bool false, "x8"⟩]⟩,
    url := "u8", targetAt := 259200000, carryOver := true, createdAt := 8,
    updatedAt := 0, updatedUser := "w8", owner := none }

/-- The transaction `expiredTodo` submits for `c8t` under the colliding oracle. -/
def c8tx : List WriteOp := [WriteOp.update "p8" 1, WriteOp.put c8item true]

/-- A record whose sub-items carry every shape of `complete` value. -/
def c10t : Todo :=
  { id := "a10", status := 0, title := "t10",
    comment := ⟨"ct10", "fc10",
      [⟨JSVal.undef, "a"⟩, ⟨JSVal.null, "b"⟩, ⟨JSVal.num 0, "c"⟩,
       ⟨JSVal.str "false", "d"⟩, ⟨JSVal.bool true, "e"⟩, ⟨JSVal.bool false, "f"⟩]⟩,
    url := "u10", targetAt := 0, carryOver := true, createdAt := 0, updatedAt := 0,
    updatedUser := "w10", owner := none }

theorem contains_of_mem {l : List String} {a : String} (h : a ∈ l) :
    l.contains a = true := by
  simpa [List.contains] using List.elem_iff.mpr h

theorem filter_ext_mem {α : Type} {p q : α → Bool} :
    ∀ l : List α, (∀ x ∈ l, p x = q x) → l.filter p = l.filter q := by
  intro l
  induction l with
  | nil => intro _; rfl
  | cons a rest ih =>
    intro h
    have ha := h a (List.mem_cons_self a rest)
    rw [List.filter_cons, List.filter_cons, ha,
      ih (fun x hx => h x (List.mem_cons_of_mem a hx))]

theorem carryOverPut_of_true_pos {now : Int} {fid : String} {t : Todo}
    (hc : t.carryOver = true) (hl : 0 < (carryOverComment t).contentList.length) :
    carryOverPut now fid t =
      some (createTransactItemForNewDedlineTodo now fid t (carryOverComment t)) := by
  simp only [carryOverPut]
  rw [if_pos hc, if_pos hl]

theorem carryOverPut_of_true_nil {now : Int} {fid : String} {t : Todo}
    (hc : t.carryOver = true) (hl : ¬ 0 < (carryOverComment t).contentList.length) :
    carryOverPut now fid t = none := by
  simp only [carryOverPut]
  rw [if_pos hc, if_neg hl]

theorem carryOverPut_of_false {now : Int} {fid : String} {t : Todo}
    (hc : t.carryOver = false) : carryOverPut now fid t = none := by
  simp only [carryOverPut]
  rw [if_neg (by simp [hc])]

theorem carryOverPut_eq_some {now : Int} {fid : String} {t : Todo} {p : WriteOp}
    (h : carryOverPut now fid t = some p) :
    t.carryOver = true ∧
      p = createTransactItemForNewDedlineTodo now fid t (carryOverComment t) := by
  simp only [carryOverPut] at h
  split at h
  · split at h
    · exact ⟨by assumption, (Option.some.inj h).symm⟩
    · cases h
  · cases h

theorem mem_createExpiredTransactItemsAux {now : Int} {fresh : Nat → String} :
    ∀ (l : List Todo) (k : Nat) (op : WriteOp),
      op ∈ createExpiredTransactItemsAux now fresh l k →
      (∃ t, t ∈ l ∧ op = createTransactItemForStatusUpdate t) ∨
        (∃ t j, t ∈ l ∧ carryOverPut now (fresh j) t = some op) := by
  intro l
  induction l with
  | nil =>
    intro k op h
    simp [createExpiredTransactItemsAux] at h
  | cons t rest ih =>
    intro k op h
    cases hcp : carryOverPut now (fresh k) t with
    | some p =>
      simp only [createExpiredTransactItemsAux, hcp] at h
      rcases List.mem_cons.mp h with h1 | h2
      · exact Or.inl ⟨t, List.mem_cons_self t rest, h1⟩
      rcases List.mem_cons.mp h2 with h3 | h4
      · exact Or.inr ⟨t, k, List.mem_cons_self t rest, h3 ▸ hcp⟩
      · rcases ih (k + 1) op h4 with ⟨u, hu, e⟩ | ⟨u, j, hu, e⟩
        · exact Or.inl ⟨u, List.mem_cons_of_mem t hu, e⟩
        · exact Or.inr ⟨u, j, List.mem_cons_of_mem t hu, e⟩
    | none =>
      simp only [createExpiredTransactItemsAux, hcp] at h
      rcases List.mem_cons.mp h with h1 | h2
      · exact Or.inl ⟨t, List.mem_cons_self t rest, h1⟩
      · rcases ih k op h2 with ⟨u, hu, e⟩ | ⟨u, j, hu, e⟩
        · exact Or.inl ⟨u, List.mem_cons_of_mem t hu, e⟩
        · exact Or.inr ⟨u, j, List.mem_cons_of_mem t hu, e⟩

theorem mem_createExpiredTransactItems {now : Int} {fresh : Nat → String}
    {todoItems : List Todo} {op : WriteOp}
    (h : op ∈ createExpiredTransactItems now fresh todoItems) :
    (∃ t, t ∈ todoItems ∧ expiredFilter now t = true ∧
        op = createTransactItemForStatusUpdate t) ∨
      (∃ t j, t ∈ todoItems ∧ expiredFilter now t = true ∧
        carryOverPut now (fresh j) t = some op) := by
  rcases mem_createExpiredTransactItemsAux _ _ _ h with ⟨t, ht, e⟩ | ⟨t, j, ht, e⟩
  · rcases List.mem_filter.mp ht with ⟨ht1, ht2⟩
    exact Or.inl ⟨t, ht1, ht2, e⟩
  · rcases List.mem_filter.mp ht with ⟨ht1, ht2⟩
    exact Or.inr ⟨t, j, ht1, ht2, e⟩

theorem mem_expiredTodoTransactionsAux {now : Int} {fresh : Nat → String} :
    ∀ (l : List Todo) (k : Nat) (tx : List WriteOp),
      tx ∈ expiredTodoTransactionsAux now fresh l k →
      ∃ t, t ∈ l ∧
        (tx = [createTransactItemForStatusUpdate t] ∨
          ∃ j p, carryOverPut now (fresh j) t = some p ∧
            tx = [createTransactItemForStatusUpdate t, p]) := by
  intro l
  induction l with
  | nil =>
    intro k tx h
    simp [expiredTodoTransactionsAux] at h
  | cons t rest ih =>
    intro k tx h
    by_cases hco : t.carryOver = true
    · cases hcp : carryOverPut now (fresh k) t with
      | some p =>
        simp only [expiredTodoTransactionsAux, hco, if_true, hcp] at h
        rcases List.mem_cons.mp h with h1 | h2
        · exact ⟨t, List.mem_cons_self t rest, Or.inr ⟨k, p, hcp, h1⟩⟩
        · rcases ih (k + 1) tx h2 with ⟨u, hu, e⟩
          exact ⟨u, List.mem_cons_of_mem t hu, e⟩
      | none =>
        simp only [expiredTodoTransactionsAux, hco, if_true, hcp] at h
        rcases List.mem_cons.mp h with h1 | h2
        · exact ⟨t, List.mem_cons_self t rest, Or.inl h1⟩
        · rcases ih k tx h2 with ⟨u, hu, e⟩
          exact ⟨u, List.mem_cons_of_mem t hu, e⟩
    · simp only [expiredTodoTransactionsAux, hco, if_false] at h
      rcases ih k tx h with ⟨u, hu, e⟩
      exact ⟨u, List.mem_cons_of_mem t hu, e⟩

theorem mem_expiredTodoOps {now : Int} {fresh : Nat → String}
    {snapshot : List Todo} {tx : List WriteOp}
    (h : tx ∈ expiredTodoOps now fresh snapshot) :
    ∃ t, t ∈ snapshot ∧ t.status == 0 ∧ expiredFilterJs now t = true ∧
      (tx = [createTransactItemForStatusUpdate t] ∨
        ∃ j p, carryOverPut now (fresh j) t = some p ∧
          tx = [createTransactItemForStatusUpdate t, p]) := by
  rcases mem_expiredTodoTransactionsAux _ _ _ h with ⟨t, ht, e⟩
  rcases List.mem_filter.mp ht with ⟨ht1, ht2⟩
  rcases List.mem_filter.mp ht1 with ⟨ht3, ht4⟩
  exact ⟨t, ht3, ht4, ht2, e⟩

theorem applyBatch_some_precond {store : List Todo} {batch : List WriteOp}
    {st : List Todo} (h : applyBatch store batch = some st) :
    ∀ op ∈ batch, opPreconditionOk store op = true := by
  unfold applyBatch at h
  split at h
  · exact List.all_eq_true.mp (by assumption)
  · cases h

theorem applyBatch_none_of_bad {store : List Todo} {batch : List WriteOp}
    {op : WriteOp} (hop : op ∈ batch)
    (hbad : opPreconditionOk store op = false) :
    applyBatch store batch = none := by
  cases hall : batch.all (opPreconditionOk store) with
  | true =>
    have := List.all_eq_true.mp hall op hop
    rw [hbad] at this
    cases this
  | false => simp [applyBatch, hall]

theorem filter_length_pos_iff_any (l : List Content) :
    (0 < (l.filter (fun c => c.complete == JSVal.bool false)).length) ↔
      (l.any (fun c => c.complete == JSVal.bool false) = true) := by
  rw [List.length_pos_iff_exists_mem]
  simp [List.mem_filter, List.any_eq_true]

/-- Claim C1: for every snapshot record with status Active and
`targetAt <= now - expiryAgeDays`, an `UpdateStatus{id, Expired}` operation is
supposed to appear in the final batch unless that id is also deleted; in
particular a single Active record 10 days past due with `carryOver = false`
should yield exactly `[UpdateStatus(id, Expired)]`.  The code does not do
this: at that very input the legacy `expiredTodo` submits no transaction at
all (its `transactWrite` sits inside `if (updateTodo.carryOver)`), and the
TypeScript `createTransactItems` yields `[DeleteById(id)]`, because its
deletion filter keys on `targetAt`, so the stale record is also
delete-selected and its update is superseded. -/
theorem claim_C1_code_eval :
    expiredTodoOps 0 c1fresh [c1t] = [] ∧
    createTransactItems 0 c1fresh [c1t] = [WriteOp.delete "a1"] := by
  constructor
  · rfl
  · rfl

/-- Claim C3: a `DeleteById{id}` is supposed to be produced exactly for the
Expired records with `updatedAt <= now - deletionAgeDays`.  The TypeScript
`createDeleteTransactItems` instead tests `targetAt`: the flagged record
`c3a` (updated 8 days ago, due yesterday) produces no operation, while `c3b`
(updated at the run instant, due 8 days ago) is deleted.  The legacy
`deleteTodo` pass does select on `updatedAt` (strictly) and deletes `c3a` and
not `c3b`, matching the claim's intent. -/
theorem claim_C3_code_eval :
    createTransactItems 0 c3fresh [c3a] = [] ∧
    createTransactItems 0 c3fresh [c3b] = [WriteOp.delete "b3"] ∧
    deleteTodoOps 0 [c3a] = [WriteOp.delete "a3"] ∧
    deleteTodoOps 0 [c3b] = [] := by
  refine ⟨rfl, rfl, rfl, rfl⟩

/-- Claim C9: the Active-to-Expired update (`UpdateExpression
"set #status = :delete"`) modifies only the `status` field of the targeted
record: every other field, in particular `updatedAt`, is unchanged, and the
`deleteTodo` eligibility test on the flagged record is therefore still a test
of the record's pre-existing `updatedAt` value. -/
theorem claim_C9_update_frame (i : String) (v : Nat) (t : Todo) (now : Int) :
    (updateStatusTransform i v t).id = t.id ∧
    (updateStatusTransform i v t).title = t.title ∧
    (updateStatusTransform i v t).comment = t.comment ∧
    (updateStatusTransform i v t).url = t.url ∧
    (updateStatusTransform i v t).targetAt = t.targetAt ∧
    (updateStatusTransform i v t).carryOver = t.carryOver ∧
    (updateStatusTransform i v t).createdAt = t.createdAt ∧
    (updateStatusTransform i v t).updatedAt = t.updatedAt ∧
    (updateStatusTransform i v t).updatedUser = t.updatedUser ∧
    (updateStatusTransform i v t).owner = t.owner ∧
    (updateStatusTransform i v t).status = (if t.id == i then v else t.status) ∧
    deleteTodoFilter now (updateStatusTransform t.id 1 t) = deleteTodoFilter now t := by
  by_cases h : (t.id == i) = true <;>
    simp [updateStatusTransform, deleteTodoFilter, h]

/-- Claim C10: the carry-over filter keeps a sub-item exactly when its
`complete` field is the boolean value `false` (strict equality
`content.complete === false`); `undefined`, `null`, the number `0`, the
string `"false"`, and `true` are all excluded, as the concrete record `c10t`
shows. -/
theorem claim_C10_strict_false_filter (t : Todo) (c : Content) :
    (c ∈ (carryOverComment t).contentList ↔
      c ∈ t.comment.contentList ∧ c.complete = JSVal.bool false) ∧
    (carryOverComment c10t).contentList = [⟨JSVal.bool false, "f"⟩] := by
  constructor
  · simp [carryOverComment, List.mem_filter]
  · rfl

/-- Claim C2: for an expiring record, a successor `CreateIfAbsent` is
produced if and only if `carryOver` is true and at least one sub-item has
`complete === false`; when produced it is a single conditional `Put` whose
`contentList` is the predecessor's incomplete sub-items in original order and
whose `targetAt` is the run time plus `resetAddDate` (3) days; when
`carryOver` is false, nothing is produced whatever `contentList` holds. -/
theorem claim_C2_carry_over_put (now : Int) (fid : String) (t : Todo) :
    ((carryOverPut now fid t).isSome =
        (t.carryOver &&
          t.comment.contentList.any (fun c => c.complete == JSVal.bool false))) ∧
    (∀ p, carryOverPut now fid t = some p →
      ∃ item, p = WriteOp.put item true ∧
        item.comment.contentList =
          t.comment.contentList.filter (fun c => c.complete == JSVal.bool false) ∧
        item.comment.commentType = t.comment.commentType ∧
        item.comment.freeComment = t.comment.freeComment ∧
        item.targetAt = now + resetAddDate * dayMs) ∧
    (t.carryOver = false → ∀ cl : List Content,
      carryOverPut now fid
        { t with comment := { t.comment with contentList := cl } } = none) := by
  refine ⟨?_, ?_, ?_⟩
  · by_cases hc : t.carryOver = true
    · by_cases hl : 0 < (carryOverComment t).contentList.length
      · have ha : (t.comment.contentList.any
            (fun c => c.complete == JSVal.bool false)) = true :=
          (filter_length_pos_iff_any t.comment.contentList).mp hl
        rw [carryOverPut_of_true_pos hc hl, hc, ha]
        rfl
      · have ha : (t.comment.contentList.any
            (fun c => c.complete == JSVal.bool false)) = false := by
          cases hx : t.comment.contentList.any
              (fun c => c.complete == JSVal.bool false) with
          | true => exact absurd ((filter_length_pos_iff_any _).mpr hx) hl
          | false => rfl
        rw [carryOverPut_of_true_nil hc hl, hc, ha]
        rfl
    · have hc' : t.carryOver = false := by
        revert hc; cases t.carryOver <;> simp
      rw [carryOverPut_of_false hc', hc']
      rfl
  · intro p hp
    rcases carryOverPut_eq_some hp with ⟨hc, rfl⟩
    exact ⟨_, rfl, rfl, rfl, rfl, rfl⟩
  · intro hc cl
    exact carryOverPut_of_false hc

/-- Witness for claim C2 at the concrete record `c2t` (one incomplete, one
complete sub-item) and its `carryOver = false` twin `c2tf`. -/
theorem claim_C2_witness :
    (∃ item, c2p = WriteOp.put item true ∧
      item.comment.contentList =
        c2t.comment.contentList.filter (fun c => c.complete == JSVal.bool false) ∧
      item.comment.commentType = c2t.comment.commentType ∧
      item.comment.freeComment = c2t.comment.freeComment ∧
      item.targetAt = 0 + resetAddDate * dayMs) ∧
    carryOverPut 0 "n2"
      { c2tf with comment := { c2tf.comment with contentList := [] } } = none := by
  exact ⟨(claim_C2_carry_over_put 0 "n2" c2t).2.1 c2p (by decide),
    (claim_C2_carry_over_put 0 "n2" c2tf).2.2 (by decide) []⟩

/-- Claim C5: a read failure (missing `Items` field or a thrown scan) makes
the run return the failure status with the table untouched; and when the
single batch submission fails — by transport or by a rejected transaction —
the run returns the failure status and the table state is exactly the state
before submission, since nothing is written before that one call. -/
theorem claim_C5_failure_outcomes (now : Int) (fresh : Nat → String)
    (store : List Todo) (items : List Todo) (transportOk : Bool) :
    (lambdaHandlerTs ScanResult.noData now fresh transportOk store = (400, store)) ∧
    (lambdaHandlerTs ScanResult.getError now fresh transportOk store = (400, store)) ∧
    (createTransactItems now fresh items ≠ [] → transportOk = false →
      lambdaHandlerTs (ScanResult.ok items) now fresh transportOk store = (400, store)) ∧
    (applyBatch store (createTransactItems now fresh items) = none →
      lambdaHandlerTs (ScanResult.ok items) now fresh true store = (400, store)) := by
  refine ⟨rfl, rfl, ?_, ?_⟩
  · intro hne htok
    have h0 : ((createTransactItems now fresh items).length == 0) = false := by
      simp [List.length_eq_zero, hne]
    simp [lambdaHandlerTs, h0, htok]
  · intro hnone
    have hne : createTransactItems now fresh items ≠ [] := by
      intro h
      rw [h] at hnone
      simp [applyBatch] at hnone
    have h0 : ((createTransactItems now fresh items).length == 0) = false := by
      simp [List.length_eq_zero, hne]
    simp [lambdaHandlerTs, h0, hnone]

/-- Witness for claim C5: one stale active record makes the batch non-empty,
and a transport failure at that point leaves the (empty) table unchanged and
returns the failure status. -/
theorem claim_C5_witness :
    lambdaHandlerTs (ScanResult.ok [c5t]) 0 c5fresh false [] = (400, []) :=
  (claim_C5_failure_outcomes 0 c5fresh [] [c5t] false).2.2.1 (by decide) rfl

/-- Every `Put` inside a transaction submitted by `expiredTodo` is the
carry-over successor of some queried record: status-0, past the expiry
limit, and shaped by `createTransactItemForNewDedlineTodo`. -/
theorem js_put_shape {now : Int} {fresh : Nat → String} {snapshot : List Todo}
    {tx : List WriteOp} {item : Todo} {c : Bool}
    (htx : tx ∈ expiredTodoOps now fresh snapshot)
    (hput : WriteOp.put item c ∈ tx) :
    ∃ t j, t ∈ snapshot ∧ (t.status == 0) = true ∧ expiredFilterJs now t = true ∧
      WriteOp.put item c =
        createTransactItemForNewDedlineTodo now (fresh j) t (carryOverComment t) := by
  rcases mem_expiredTodoOps htx with ⟨t, hts, ht0, htf, hcase⟩
  rcases hcase with rfl | ⟨j, p, hp, rfl⟩
  · rcases List.mem_cons.mp hput with h1 | h2
    · exact absurd h1 (by simp [createTransactItemForStatusUpdate])
    · simp at h2
  · rcases carryOverPut_eq_some hp with ⟨hco, rfl⟩
    rcases List.mem_cons.mp hput with h1 | h2
    · exact absurd h1 (by simp [createTransactItemForStatusUpdate])
    · exact ⟨t, j, hts, ht0, htf, by simpa using h2⟩

/-- Claim C6: every successor record put by the carry-over path starts with
`status = 0` (the predecessor's pre-transition Active value), and whenever the
containing transaction is accepted by the store, the successor's id differs
from the id of every record already in the store — in particular from its
predecessor's, which is part of the stored snapshot. -/
theorem claim_C6_successor_active_fresh_id (now : Int) (fresh : Nat → String)
    (snapshot store : List Todo) :
    ∀ tx ∈ expiredTodoOps now fresh snapshot, ∀ item c, WriteOp.put item c ∈ tx →
      item.status = 0 ∧
      ∀ st, applyBatch store tx = some st → ∀ t ∈ store, item.id ≠ t.id := by
  intro tx htx item c hput
  rcases js_put_shape htx hput with ⟨t, j, hts, ht0, htf, heq⟩
  simp only [createTransactItemForNewDedlineTodo] at heq
  injection heq with hitem hc
  constructor
  · rw [hitem]
    exact beq_iff_eq.mp ht0
  · intro st hst u hu heqid
    have hpre := applyBatch_some_precond hst _ hput
    rw [hc] at hpre
    simp only [opPreconditionOk, Bool.not_true, Bool.false_or] at hpre
    have hhas : storeHasId store item.id = true := by
      unfold storeHasId
      exact List.any_eq_true.mpr ⟨u, hu, by rw [heqid]; exact beq_self_eq_true u.id⟩
    rw [hhas] at hpre
    simp at hpre

/-- Witness for claim C6: the successor generated for the stored record
`c6t` has status 0 and an id different from its predecessor's, obtained from
the accepted transaction `c6tx` against the table `[c6t]`. -/
theorem claim_C6_witness : c6item.status = 0 ∧ c6item.id ≠ c6t.id := by
  have h := claim_C6_successor_active_fresh_id 0 c6fresh [c6t] [c6t] c6tx
    (by decide) c6item true (by decide)
  exact ⟨h.1, h.2 c6st (by decide) c6t (by decide)⟩

theorem js_put_updatedAt {now : Int} {fresh : Nat → String} {snapshot : List Todo}
    {tx : List WriteOp} {item : Todo} {c : Bool}
    (htx : tx ∈ expiredTodoOps now fresh snapshot)
    (hput : WriteOp.put item c ∈ tx) : item.updatedAt = now := by
  rcases js_put_shape htx hput with ⟨t, j, _, _, _, heq⟩
  simp only [createTransactItemForNewDedlineTodo] at heq
  injection heq with hitem hc
  rw [hitem]

/-- Claim C7: every successor record copies `title`, `url`, `carryOver`,
`createdAt` and `updatedUser` verbatim from its predecessor, has `owner`
empty and `updatedAt` equal to the run's single invocation timestamp
(`updateiSOString`, computed once per run); consequently all successors of
one run share the same `updatedAt` value. -/
theorem claim_C7_successor_fields (now : Int) (fresh : Nat → String)
    (snapshot : List Todo) :
    (∀ tx ∈ expiredTodoOps now fresh snapshot, ∀ item c, WriteOp.put item c ∈ tx →
      ∃ t, t ∈ snapshot ∧ item.title = t.title ∧ item.url = t.url ∧
        item.carryOver = t.carryOver ∧ item.createdAt = t.createdAt ∧
        item.updatedUser = t.updatedUser ∧ item.owner = none ∧
        item.updatedAt = now) ∧
    (∀ tx1 ∈ expiredTodoOps now fresh snapshot,
      ∀ tx2 ∈ expiredTodoOps now fresh snapshot,
      ∀ item1 c1 item2 c2, WriteOp.put item1 c1 ∈ tx1 → WriteOp.put item2 c2 ∈ tx2 →
        item1.updatedAt = item2.updatedAt) := by
  constructor
  · intro tx htx item c hput
    rcases js_put_shape htx hput with ⟨t, j, hts, _, _, heq⟩
    simp only [createTransactItemForNewDedlineTodo] at heq
    injection heq with hitem hc
    exact ⟨t, hts, by rw [hitem], by rw [hitem], by rw [hitem], by rw [hitem],
      by rw [hitem], by rw [hitem], by rw [hitem]⟩
  · intro tx1 h1 tx2 h2 item1 c1 item2 c2 hp1 hp2
    rw [js_put_updatedAt h1 hp1, js_put_updatedAt h2 hp2]

/-- Witness for claim C7 at the concrete record `c7t` and its successor. -/
theorem claim_C7_witness :
    ∃ t, t ∈ [c7t] ∧ c7item.title = t.title ∧ c7item.url = t.url ∧
      c7item.carryOver = t.carryOver ∧ c7item.createdAt = t.createdAt ∧
      c7item.updatedUser = t.updatedUser ∧ c7item.owner = none ∧
      c7item.updatedAt = 0 :=
  (claim_C7_successor_fields 0 c7fresh [c7t]).1 c7tx (by decide) c7item true (by decide)

/-- Claim C8: every successor create carries the
`attribute_not_exists(#id)` condition, and when that precondition fails —
the fresh id already present in the table — the whole containing transaction
is rejected and the table is left exactly as it was before submission. -/
theorem claim_C8_conditional_create (now : Int) (fresh : Nat → String)
    (snapshot store : List Todo) :
    ∀ tx ∈ expiredTodoOps now fresh snapshot, ∀ item c, WriteOp.put item c ∈ tx →
      c = true ∧ (storeHasId store item.id = true →
        applyBatch store tx = none ∧ applyBatchOrKeep store tx = store) := by
  intro tx htx item c hput
  rcases js_put_shape htx hput with ⟨t, j, _, _, _, heq⟩
  simp only [createTransactItemForNewDedlineTodo] at heq
  injection heq with hitem hc
  refine ⟨hc, ?_⟩
  intro hhas
  have hbad : opPreconditionOk store (WriteOp.put item c) = false := by
    rw [hc]
    simp [opPreconditionOk, hhas]
  have hnone := applyBatch_none_of_bad hput hbad
  exact ⟨hnone, by simp [applyBatchOrKeep, hnone]⟩

/-- Witness for claim C8: the uuid oracle returns the already-present id
"p8", and the forced collision leaves the one-record table unchanged. -/
theorem claim_C8_witness :
    applyBatch [c8t] c8tx = none ∧ applyBatchOrKeep [c8t] c8tx = [c8t] :=
  (claim_C8_conditional_create 0 c8fresh [c8t] [c8t] c8tx
    (by decide) c8item true (by decide)).2 (by decide)

theorem filter_eq_nil_of_false {α : Type} {p : α → Bool} :
    ∀ l : List α, (∀ x ∈ l, p x = false) → l.filter p = [] := by
  intro l
  induction l with
  | nil => intro _; rfl
  | cons a rest ih =>
    intro h
    have hrest := ih (fun x hx => h x (List.mem_cons_of_mem a hx))
    simp [List.filter_cons, h a (List.mem_cons_self a rest), hrest]

theorem update_origin {now : Int} {fresh : Nat → String} {todoItems : List Todo}
    {i : String}
    (h : i ∈ (createExpiredTransactItems now fresh todoItems).filterMap opUpdateId) :
    ∃ t, t ∈ todoItems ∧ expiredFilter now t = true ∧ t.id = i := by
  rcases List.mem_filterMap.mp h with ⟨op, hop, hid⟩
  rcases mem_createExpiredTransactItems hop with ⟨t, ht, hf, rfl⟩ | ⟨t, j, ht, hf, hp⟩
  · refine ⟨t, ht, hf, ?_⟩
    simpa [createTransactItemForStatusUpdate, opUpdateId] using hid
  · rcases carryOverPut_eq_some hp with ⟨_, hop'⟩
    rw [hop'] at hid
    simp [createTransactItemForNewDedlineTodo, opUpdateId] at hid

theorem update_id_in_dels {now : Int} {todoItems : List Todo} {ids : List String}
    {t : Todo} (hmem : t ∈ todoItems) (hexp : expiredFilter now t = true)
    (hcon : ids.contains t.id = true) :
    WriteOp.delete t.id ∈ createDeleteTransactItems now todoItems ids := by
  have hf : deleteTransactFilter now ids t = true := by
    simp only [expiredFilter, Bool.and_eq_true] at hexp
    obtain ⟨hs, htar⟩ := hexp
    unfold deleteTransactFilter
    have h7 : (dataDeleteDate : Int) = flagDeleteDate := rfl
    rw [h7, hcon, htar]
    simp
  exact List.mem_map.mpr ⟨t, List.mem_filter.mpr ⟨hmem, hf⟩, rfl⟩

theorem merge_split (e d : List WriteOp) (u : List String)
    (hkey : ∀ i v, WriteOp.update i v ∈ e →
      WriteOp.delete i ∈ d ∧ u.contains i = true)
    (hshape : ∀ op ∈ e, isPutOp op = true ∨ ∃ i v, op = WriteOp.update i v) :
    e.filter (keepInMerge ((d.filterMap opDeleteId).filter (fun i => u.contains i)))
        ++ d =
      e.filter (keptUpdateFilter (d.filterMap opDeleteId)) ++
        (e.filter isPutOp ++ d) := by
  have h1 : e.filter (keptUpdateFilter (d.filterMap opDeleteId)) = [] := by
    apply filter_eq_nil_of_false
    intro op hop
    rcases hshape op hop with hput | ⟨i, v, rfl⟩
    · cases op with
      | update i v => simp [isPutOp] at hput
      | put a b => rfl
      | delete i => simp [isPutOp] at hput
    · have hd := (hkey i v hop).1
      have hc : (d.filterMap opDeleteId).contains i = true :=
        contains_of_mem (List.mem_filterMap.mpr ⟨WriteOp.delete i, hd, rfl⟩)
      simp only [keptUpdateFilter]
      rw [hc]
      rfl
  have h2 : e.filter
      (keepInMerge ((d.filterMap opDeleteId).filter (fun i => u.contains i))) =
      e.filter isPutOp := by
    apply filter_ext_mem
    intro op hop
    rcases hshape op hop with hput | ⟨i, v, rfl⟩
    · cases op with
      | update i v => simp [isPutOp] at hput
      | put a b => rfl
      | delete i => simp [isPutOp] at hput
    · have hd := hkey i v hop
      have hidIds : i ∈ d.filterMap opDeleteId :=
        List.mem_filterMap.mpr ⟨WriteOp.delete i, hd.1, rfl⟩
      have hdup : ((d.filterMap opDeleteId).filter
          (fun j => u.contains j)).contains i = true :=
        contains_of_mem (List.mem_filter.mpr ⟨hidIds, hd.2⟩)
      simp only [keepInMerge, isPutOp]
      rw [hdup]
      rfl
  rw [h1, h2, List.nil_append]

/-- Claim C4: the final batch of `createTransactItems` is the reconciliation
of the pass outputs: update operations whose target id is also selected for
delete are dropped, successor creates are kept, and the batch equals the kept
updates, then all creates, then all deletes, each subsequence in the order
derived from the snapshot.  (With both thresholds at 7 days and the deletion
filter keying on `targetAt`, every update id is also delete-selected, so the
kept-updates segment is always empty.) -/
theorem claim_C4_reconcile_order (now : Int) (fresh : Nat → String)
    (todoItems : List Todo) :
    createTransactItems now fresh todoItems =
      (createExpiredTransactItems now fresh todoItems).filter
          (keptUpdateFilter
            ((createDeleteTransactItems now todoItems
              ((createExpiredTransactItems now fresh todoItems).filterMap
                opUpdateId)).filterMap opDeleteId)) ++
        ((createExpiredTransactItems now fresh todoItems).filter isPutOp ++
          createDeleteTransactItems now todoItems
            ((createExpiredTransactItems now fresh todoItems).filterMap
              opUpdateId)) := by
  have hkey : ∀ i v,
      WriteOp.update i v ∈ createExpiredTransactItems now fresh todoItems →
      WriteOp.delete i ∈ createDeleteTransactItems now todoItems
        ((createExpiredTransactItems now fresh todoItems).filterMap opUpdateId) ∧
      ((createExpiredTransactItems now fresh todoItems).filterMap
        opUpdateId).contains i = true := by
    intro i v hop
    have hiu : i ∈ (createExpiredTransactItems now fresh todoItems).filterMap
        opUpdateId :=
      List.mem_filterMap.mpr ⟨WriteOp.update i v, hop, rfl⟩
    rcases update_origin hiu with ⟨t, ht, hexp, rfl⟩
    exact ⟨update_id_in_dels ht hexp (contains_of_mem hiu), contains_of_mem hiu⟩
  have hshape : ∀ op ∈ createExpiredTransactItems now fresh todoItems,
      isPutOp op = true ∨ ∃ i v, op = WriteOp.update i v := by
    intro op hop
    rcases mem_createExpiredTransactItems hop with ⟨t, _, _, rfl⟩ | ⟨t, j, _, _, hp⟩
    · exact Or.inr ⟨t.id, 1, rfl⟩
    · rcases carryOverPut_eq_some hp with ⟨_, hop'⟩
      subst hop'
      exact Or.inl rfl
  exact merge_split _ _ _ hkey hshape
